import Mathlib

/-!
Verification of the stealthy ICMP messenger's transport and padding layers.

The definitions below are a shallow embedding of the Rust sources:
`src/blowfish.rs` (PKCS#7 padding) and `src/binding.rs` (the `Network`
transport: ack table, send path, inbound dispatch, MTU probe).  Bytes are
modelled as `Nat` (the claims involve no `u8` overflow), the
`HashMap<u64, PendingPacket>` ack table as an association list whose insert
removes any previous binding of the key (the overwrite semantics of
`HashMap::insert`), and the wall clock as an explicit `Int` argument.
The `Packet` codec lives in `packet.rs`, which is not among the given
sources; it is modelled from the spec where noted.
-/

namespace Stealthy

/-! ## Blowfish PKCS#7 padding (src/blowfish.rs) -/

/-- Embedding of `Blowfish::padding`: append `8 - len % 8` copies of that
count (`let padval = 8 - data.len() % 8; data.chain(repeat(padval).take(padval))`). -/
def padding (data : List Nat) : List Nat :=
  let padval := 8 - data.length % 8
  data ++ List.replicate padval padval

/-- Embedding of `Blowfish::remove_padding`: requires `data.len() >= 8`,
reads the last byte as `padval`, requires `padval <= 8` and that the last
`padval` bytes all equal `padval`; then drops the last `padval` bytes. -/
def remove_padding (data : List Nat) : Option (List Nat) :=
  if 8 ≤ data.length then
    match data.getLast? with
    | some padval =>
      if padval ≤ 8 then
        if (data.reverse.take padval).all (fun x => x == padval) then
          some (data.take (data.length - padval))
        else none
      else none
    | none => none
  else none

/-- The acceptance predicate `remove_padding` actually implements: length at
least 8, last byte `p ≤ 8` (including `p = 0`), and the trailing `p` bytes all
equal to `p`. -/
def pad_accepted (data : List Nat) : Prop :=
  8 ≤ data.length ∧
    ∃ p, data.getLast? = some p ∧ p ≤ 8 ∧ ∀ b ∈ data.reverse.take p, b = p

instance (data : List Nat) : Decidable (pad_accepted data) := by
  unfold pad_accepted
  infer_instance

theorem remove_padding_eq_some (data : List Nat) (p : Nat)
    (h8 : 8 ≤ data.length) (hl : data.getLast? = some p) (hp : p ≤ 8)
    (hall : (data.reverse.take p).all (fun x => x == p) = true) :
    remove_padding data = some (data.take (data.length - p)) := by
  unfold remove_padding
  rw [if_pos h8, hl]
  dsimp only
  rw [if_pos hp, if_pos hall]

theorem remove_padding_isSome_iff (data : List Nat) :
    remove_padding data ≠ none ↔ pad_accepted data := by
  unfold remove_padding pad_accepted
  by_cases h8 : 8 ≤ data.length
  · rw [if_pos h8]
    cases hl : data.getLast? with
    | none =>
      simp only [List.getLast?_eq_none_iff] at hl
      subst hl
      simp at h8
    | some p =>
      dsimp only
      by_cases hp : p ≤ 8
      · rw [if_pos hp]
        by_cases hall : (data.reverse.take p).all (fun x => x == p) = true
        · rw [if_pos hall]
          simp only [ne_eq, List.all_eq_true, beq_iff_eq] at hall ⊢
          exact ⟨fun _ => ⟨h8, p, rfl, hp, hall⟩, fun _ => Option.some_ne_none _⟩
        · rw [if_neg hall]
          simp only [ne_eq, not_true_eq_false, false_iff, not_and, not_exists]
          intro _ q hq
          cases hq
          intro _ hq'
          exact hall (by simpa [List.all_eq_true] using hq')
      · rw [if_neg hp]
        simp only [ne_eq, not_true_eq_false, false_iff, not_and, not_exists]
        intro _ q hq
        cases hq
        intro hq' _
        exact hp hq'
  · rw [if_neg h8]
    simp only [ne_eq, not_true_eq_false, false_iff, not_and]
    intro h
    exact absurd h h8

/-- C3 counterexample: the code accepts a last byte of 0 (the check
`padval <= 8` does not exclude 0), returning the input unchanged, where the
claim demands `None`; and it rejects `[1]` (length < 8), which the claim's
"accepts exactly `1 <= pad <= 8` with trailing bytes equal" would accept. -/
theorem remove_padding_zero_pad_cex :
    remove_padding [1, 2, 3, 4, 5, 6, 7, 0] = some [1, 2, 3, 4, 5, 6, 7, 0] ∧
    remove_padding [1] = none := by
  exact ⟨by decide, by decide⟩

/-- C3 (amended): `remove_padding` returns `None` exactly when the input is
shorter than 8 bytes, or the last byte exceeds 8, or the trailing
last-byte-many bytes are not all equal to the last byte; it accepts exactly
the inputs of length at least 8 whose last byte `pad` satisfies
`0 ≤ pad ≤ 8` with the last `pad` bytes all equal to `pad`. -/
theorem remove_padding_accepts_iff (data : List Nat) :
    remove_padding data ≠ none ↔ pad_accepted data :=
  remove_padding_isSome_iff data

/-- C4: for every byte string `L` (in particular of length 0 through 1024),
`padding` appends exactly `8 - (L.len mod 8)` bytes — a value between 1
and 8, each appended byte equal to that value — the padded length is a
multiple of 8, and `remove_padding (padding L) = some L`. -/
theorem padding_roundtrip (L : List Nat) (h : L.length ≤ 1024) :
    (padding L).length = L.length + (8 - L.length % 8) ∧
    1 ≤ 8 - L.length % 8 ∧ 8 - L.length % 8 ≤ 8 ∧
    (padding L).drop L.length =
      List.replicate (8 - L.length % 8) (8 - L.length % 8) ∧
    (padding L).length % 8 = 0 ∧
    remove_padding (padding L) = some L := by
  have hp1 : 1 ≤ 8 - L.length % 8 := by omega
  have hp8 : 8 - L.length % 8 ≤ 8 := by omega
  have hpeq : padding L =
      L ++ List.replicate (8 - L.length % 8) (8 - L.length % 8) := rfl
  have hlen : (padding L).length = L.length + (8 - L.length % 8) := by
    rw [hpeq]
    simp
  refine ⟨hlen, hp1, hp8, ?_, ?_, ?_⟩
  · rw [hpeq]
    exact List.drop_left L _
  · have hx : ∀ n : Nat, (n + (8 - n % 8)) % 8 = 0 := fun n => by omega
    rw [hlen]
    exact hx L.length
  · have hrepl : List.replicate (8 - L.length % 8) (8 - L.length % 8) =
        List.replicate (8 - L.length % 8 - 1) (8 - L.length % 8) ++
          [8 - L.length % 8] := by
      obtain ⟨k, hk⟩ : ∃ k, 8 - L.length % 8 = k + 1 :=
        ⟨8 - L.length % 8 - 1, by omega⟩
      rw [hk]
      simp [List.replicate_succ']
    have hsplit : padding L =
        (L ++ List.replicate (8 - L.length % 8 - 1) (8 - L.length % 8)) ++
          [8 - L.length % 8] := by
      rw [hpeq, hrepl, List.append_assoc]
    have hlast : (padding L).getLast? = some (8 - L.length % 8) := by
      rw [hsplit]
      exact List.getLast?_concat _
    have hrev : (padding L).reverse.take (8 - L.length % 8) =
        List.replicate (8 - L.length % 8) (8 - L.length % 8) := by
      rw [hpeq, List.reverse_append, List.reverse_replicate]
      exact List.take_left' (List.length_replicate _ _)
    have hall : ((padding L).reverse.take (8 - L.length % 8)).all
        (fun x => x == (8 - L.length % 8)) = true := by
      rw [hrev]
      simp [List.all_eq_true, List.mem_replicate]
    have h8 : 8 ≤ (padding L).length := by rw [hlen]; omega
    rw [remove_padding_eq_some (padding L) (8 - L.length % 8) h8 hlast hp8 hall]
    rw [hlen]
    have htake : L.length + (8 - L.length % 8) - (8 - L.length % 8) = L.length := by
      omega
    rw [htake, hpeq]
    exact congrArg some (List.take_left L _)

/-- C4 witness: the concrete roundtrip at `L = [1, 2, 3, 5]`. -/
theorem padding_roundtrip_witness :
    (([1, 2, 3, 5] : List Nat).length ≤ 1024) ∧
    ((padding [1, 2, 3, 5]).length =
        ([1, 2, 3, 5] : List Nat).length + (8 - ([1, 2, 3, 5] : List Nat).length % 8) ∧
      1 ≤ 8 - ([1, 2, 3, 5] : List Nat).length % 8 ∧
      8 - ([1, 2, 3, 5] : List Nat).length % 8 ≤ 8 ∧
      (padding [1, 2, 3, 5]).drop ([1, 2, 3, 5] : List Nat).length =
        List.replicate (8 - ([1, 2, 3, 5] : List Nat).length % 8)
          (8 - ([1, 2, 3, 5] : List Nat).length % 8) ∧
      (padding [1, 2, 3, 5]).length % 8 = 0 ∧
      remove_padding (padding [1, 2, 3, 5]) = some [1, 2, 3, 5]) :=
  ⟨by decide, padding_roundtrip [1, 2, 3, 5] (by decide)⟩

/-! ## Transport data model (src/binding.rs)

`message.rs`, `packet.rs` and `error.rs` are not among the given sources;
their data carriers are modelled from the spec (§3, §4.1) and from how
`binding.rs` and the given `lib.rs` use them. -/

/-- Modelled from the spec: the `MessageType` of the missing `message.rs`;
`binding.rs` matches on `FileUpload` versus the rest. -/
inductive MessageType
  | NewMessage
  | AckMessage
  | FileUpload
deriving DecidableEq

/-- Modelled from the spec: the `Message` of the missing `message.rs` —
destination ip for outgoing (source ip for incoming) messages, a type tag
and the payload bytes (mirrored by the given `lib.rs`). -/
structure Message where
  ip : String
  typ : MessageType
  buf : List Nat
deriving DecidableEq

/-- `Message::new`: a `NewMessage`-typed message. -/
def Message.new (ip : String) (buf : List Nat) : Message :=
  ⟨ip, MessageType.NewMessage, buf⟩

/-- The error kinds surfaced by `binding.rs` (`error.rs` / given `lib.rs`). -/
inductive Errors
  | MessageTooBig
  | SendFailed
  | EncryptionError
deriving DecidableEq

/-- Modelled from the spec: the `Packet` of the missing `packet.rs` (§3):
version (constant 1), kind ∈ {16 NEW_MESSAGE, 17 ACK, 18 FILE_UPLOAD},
a `u64` packet id, the opaque payload, and the peer address. -/
structure Packet where
  version : Nat
  kind : Nat
  id : Nat
  data : List Nat
  ip : String
deriving DecidableEq

def NEW_MESSAGE : Nat := 16
def ACK : Nat := 17
def FILE_UPLOAD : Nat := 18

/-- Modelled from the spec: `Packet::new` as used by `send_msg` and
`send_data_as_ping` — a NEW_MESSAGE packet with the caller-chosen id. -/
def Packet.new (buf : List Nat) (ip : String) (id : Nat) : Packet :=
  ⟨1, NEW_MESSAGE, id, buf, ip⟩

/-- Modelled from the spec: `Packet::file_upload` — a FILE_UPLOAD packet. -/
def Packet.file_upload (buf : List Nat) (ip : String) (id : Nat) : Packet :=
  ⟨1, FILE_UPLOAD, id, buf, ip⟩

/-- Modelled from the spec (§4.1): `Packet::create_ack` — an ACK packet with
the same id as the acknowledged packet and an empty payload. -/
def Packet.create_ack (p : Packet) : Packet :=
  ⟨1, ACK, p.id, [], p.ip⟩

def Packet.is_new_message (p : Packet) : Bool := p.kind == NEW_MESSAGE

def Packet.is_ack (p : Packet) : Bool := p.kind == ACK

def Packet.is_file_upload (p : Packet) : Bool := p.kind == FILE_UPLOAD

/-- Big-endian value of a byte string. -/
def beNat (l : List Nat) : Nat := l.foldl (fun a b => a * 256 + b) 0

/-- Modelled from the spec: `Packet::deserialize` (§4.1 wire format): fails
when the length is below 10 or the version byte is not 1; otherwise reads
the kind byte, the big-endian `u64` id and the payload, and records the
source ip. -/
def Packet.deserialize (buf : List Nat) (ip : String) : Option Packet :=
  match buf with
  | v :: k :: rest =>
    if v = 1 ∧ 8 ≤ rest.length then
      some ⟨v, k, beNat (rest.take 8), rest.drop 8, ip⟩
    else none
  | _ => none

/-- A transmitted-but-unacknowledged packet with its last-sent time
(`PendingPacket` in `binding.rs`). -/
structure PendingPacket where
  p : Packet
  millis : Int
deriving DecidableEq

/-- The mutex-guarded `SharedData.packets : HashMap<u64, PendingPacket>`
(the AckTable), modelled as an association list whose insert overwrites any
previous binding of the key. -/
abbrev AckTable := List (Nat × PendingPacket)

/-- `HashMap::contains_key`, as read by `Network::contains`. -/
def containsKey (t : AckTable) (id : Nat) : Bool :=
  t.any (fun kv => kv.1 == id)

/-- `Network::add_packet`: `packets.insert(p.id, PendingPacket::new(p, current_millis()))`;
the clock value read inside the call is passed explicitly. -/
def add_packet (t : AckTable) (p : Packet) (now : Int) : AckTable :=
  (p.id, ⟨p, now⟩) :: t.filter (fun kv => !(kv.1 == p.id))

/-- `Network::remove_packet`: `packets.remove(&id)`. -/
def remove_packet (t : AckTable) (id : Nat) : AckTable :=
  t.filter (fun kv => !(kv.1 == id))

/-- `Network::queue_size`: `packets.len()`. -/
def queue_size (t : AckTable) : Nat := t.length

/-- The loop condition of `Network::wait_for_queue`: the call keeps sleeping
(50 ms a turn) exactly while `queue_size > 8`; it returns — admitting the
next packet — as soon as the size is at most 8. -/
def wait_for_queue_guard (t : AckTable) : Bool :=
  decide (8 < queue_size t)

/-- `MAX_MESSAGE_SIZE` from `binding.rs` (1 GiB). -/
def MAX_MESSAGE_SIZE : Nat := 1024 * 1024 * 1024

/-- The observable actions of one `send_msg` call, in program order. -/
inductive SendEvent
  | insert (id : Nat)
  | attempt (p : Packet)
  | rollback (id : Nat)
deriving DecidableEq

/-- The packet `send_msg` builds: `Packet::file_upload` for a `FileUpload`
message, `Packet::new` otherwise. -/
def send_packet_of (msg : Message) (mini_id : Nat) : Packet :=
  match msg.typ with
  | MessageType.FileUpload => Packet.file_upload msg.buf msg.ip mini_id
  | _ => Packet.new msg.buf msg.ip mini_id

/-- Embedding of `Network::send_msg`.  `link_ok` is the outcome of the
external `Network::transmit` (`send_icmp(...) == 0`) and `now` the clock
read inside `add_packet`.  `wait_for_queue` only sleeps and mutates
nothing, so it contributes no action; its admission guard is
`wait_for_queue_guard`.  Returns the result, the AckTable after the call,
and the trace of actions. -/
def send_msg (msg : Message) (table : AckTable) (mini_id : Nat) (now : Int)
    (link_ok : Bool) : Except Errors Nat × AckTable × List SendEvent :=
  if MAX_MESSAGE_SIZE < msg.buf.length then
    (Except.error Errors.MessageTooBig, table, [])
  else
    let p := send_packet_of msg mini_id
    let t1 := add_packet table p now
    if link_ok then
      (Except.ok p.id, t1, [SendEvent.insert p.id, SendEvent.attempt p])
    else
      (Except.error Errors.SendFailed, remove_packet t1 p.id,
        [SendEvent.insert p.id, SendEvent.attempt p, SendEvent.rollback p.id])

/-! ### AckTable lemmas -/

theorem containsKey_remove_self (t : AckTable) (id : Nat) :
    containsKey (remove_packet t id) id = false := by
  induction t with
  | nil => rfl
  | cons kv t ih =>
    by_cases h : kv.1 = id
    · simpa [remove_packet, containsKey, h] using ih
    · simpa [remove_packet, containsKey, h] using ih

theorem remove_packet_of_not_contains (t : AckTable) (id : Nat)
    (h : containsKey t id = false) : remove_packet t id = t := by
  induction t with
  | nil => rfl
  | cons kv t ih =>
    simp only [containsKey, List.any_cons, Bool.or_eq_false_iff] at h
    simp only [remove_packet, List.filter_cons, h.1, Bool.not_false, if_pos]
    exact congrArg (kv :: ·) (ih h.2)

theorem remove_packet_add_packet (t : AckTable) (p : Packet) (now : Int) :
    remove_packet (add_packet t p now) p.id = remove_packet t p.id := by
  simp [add_packet, remove_packet, List.filter_filter]

theorem send_packet_of_id (msg : Message) (mini_id : Nat) :
    (send_packet_of msg mini_id).id = mini_id := by
  rcases msg with ⟨ip, typ, buf⟩
  cases typ <;> rfl

instance : DecidableEq (Except Errors Nat) := fun a b =>
  match a, b with
  | Except.ok x, Except.ok y =>
    if h : x = y then isTrue (congrArg Except.ok h)
    else isFalse (fun hc => h (by injection hc))
  | Except.error x, Except.error y =>
    if h : x = y then isTrue (congrArg Except.error h)
    else isFalse (fun hc => h (by injection hc))
  | Except.ok _, Except.error _ => isFalse (fun hc => Except.noConfusion hc)
  | Except.error _, Except.ok _ => isFalse (fun hc => Except.noConfusion hc)

/-! ### Send path (claims C1, C2, C9) -/

/-- C1 (amended): for every outbound packet sent via `send_msg`, the packet
is inserted into the AckTable strictly before the Link transmit is
attempted; if the Link transmit fails, the entry with the packet's id is
removed and `SendFailed` is returned, and when the id was not already
present in the AckTable before the call this leaves the AckTable as it was
before the call. -/
theorem send_msg_insert_before_transmit (msg : Message) (table : AckTable)
    (mini_id : Nat) (now : Int) (link_ok : Bool)
    (hsz : msg.buf.length ≤ MAX_MESSAGE_SIZE) :
    (∃ i j p, i < j ∧
        (send_msg msg table mini_id now link_ok).2.2.get? i =
          some (SendEvent.insert mini_id) ∧
        (send_msg msg table mini_id now link_ok).2.2.get? j =
          some (SendEvent.attempt p) ∧ p.id = mini_id) ∧
    (link_ok = false →
      (send_msg msg table mini_id now link_ok).1 =
        Except.error Errors.SendFailed ∧
      containsKey (send_msg msg table mini_id now link_ok).2.1 mini_id = false ∧
      (containsKey table mini_id = false →
        (send_msg msg table mini_id now link_ok).2.1 = table)) := by
  have hn : ¬ MAX_MESSAGE_SIZE < msg.buf.length := not_lt.mpr hsz
  have hid := send_packet_of_id msg mini_id
  cases link_ok with
  | true =>
    have hev : send_msg msg table mini_id now true =
        (Except.ok (send_packet_of msg mini_id).id,
          add_packet table (send_packet_of msg mini_id) now,
          [SendEvent.insert (send_packet_of msg mini_id).id,
            SendEvent.attempt (send_packet_of msg mini_id)]) := by
      unfold send_msg
      rw [if_neg hn]
      rfl
    refine ⟨⟨0, 1, send_packet_of msg mini_id, by omega, ?_, ?_, hid⟩, by simp⟩
    · rw [hev, hid]
      rfl
    · rw [hev]
      rfl
  | false =>
    have hev : send_msg msg table mini_id now false =
        (Except.error Errors.SendFailed,
          remove_packet (add_packet table (send_packet_of msg mini_id) now)
            (send_packet_of msg mini_id).id,
          [SendEvent.insert (send_packet_of msg mini_id).id,
            SendEvent.attempt (send_packet_of msg mini_id),
            SendEvent.rollback (send_packet_of msg mini_id).id]) := by
      unfold send_msg
      rw [if_neg hn]
      rfl
    refine ⟨⟨0, 1, send_packet_of msg mini_id, by omega, ?_, ?_, hid⟩, ?_⟩
    · rw [hev, hid]
      rfl
    · rw [hev]
      rfl
    · intro _
      refine ⟨by rw [hev], ?_, ?_⟩
      · rw [hev]
        show containsKey
          (remove_packet (add_packet table (send_packet_of msg mini_id) now)
            (send_packet_of msg mini_id).id) mini_id = false
        rw [remove_packet_add_packet, hid]
        exact containsKey_remove_self table _
      · intro hnc
        rw [hev]
        show remove_packet (add_packet table (send_packet_of msg mini_id) now)
          (send_packet_of msg mini_id).id = table
        rw [remove_packet_add_packet]
        exact remove_packet_of_not_contains table _ (by rw [hid]; exact hnc)

/-- C1 witness: a concrete failed send on an empty AckTable. -/
theorem send_msg_insert_before_transmit_witness :
    ((Message.new "10.0.0.1" [7]).buf.length ≤ MAX_MESSAGE_SIZE) ∧
    ((∃ i j p, i < j ∧
        (send_msg (Message.new "10.0.0.1" [7]) [] 1 0 false).2.2.get? i =
          some (SendEvent.insert 1) ∧
        (send_msg (Message.new "10.0.0.1" [7]) [] 1 0 false).2.2.get? j =
          some (SendEvent.attempt p) ∧ p.id = 1) ∧
      (false = false →
        (send_msg (Message.new "10.0.0.1" [7]) [] 1 0 false).1 =
          Except.error Errors.SendFailed ∧
        containsKey (send_msg (Message.new "10.0.0.1" [7]) [] 1 0 false).2.1 1 =
          false ∧
        (containsKey [] 1 = false →
          (send_msg (Message.new "10.0.0.1" [7]) [] 1 0 false).2.1 = []))) :=
  ⟨by decide,
    send_msg_insert_before_transmit (Message.new "10.0.0.1" [7]) [] 1 0 false
      (by decide)⟩

/-- An AckTable entry already pending under id 5 before a send. -/
def cex_pending : PendingPacket := ⟨Packet.new [9] "10.0.0.2" 5, 100⟩

/-- C1 counterexample: when the AckTable already holds an entry with the
packet's id, a failed `send_msg` does not leave the AckTable as it was
before the call — the pre-existing entry is overwritten by the insert and
then deleted by the rollback. -/
theorem send_msg_rollback_cex :
    (send_msg (Message.new "10.0.0.2" [7]) [(5, cex_pending)] 5 0 false).1 =
      Except.error Errors.SendFailed ∧
    (send_msg (Message.new "10.0.0.2" [7]) [(5, cex_pending)] 5 0 false).2.1 ≠
      [(5, cex_pending)] := by
  decide

/-- An AckTable holding 8 pending packets (ids 0 through 7). -/
def overflow_table : AckTable :=
  (List.range 8).map (fun i => (i, ⟨Packet.new [0] "10.0.0.1" i, 0⟩))

/-- C2 (code bug): with 8 entries pending, `wait_for_queue`'s loop condition
`queue_size > 8` is already false, so the next send is admitted and
`add_packet` raises the AckTable to 9 entries — exceeding the limit of 8
stated by the claim and by the code's own comment. -/
theorem wait_for_queue_admits_ninth :
    queue_size overflow_table = 8 ∧
    wait_for_queue_guard overflow_table = false ∧
    queue_size (add_packet overflow_table (Packet.new [0] "10.0.0.1" 99) 0) = 9 := by
  decide

/-- C9: a message whose payload exceeds `MAX_MESSAGE_SIZE` (1 GiB) is
rejected with `MessageTooBig` before anything is inserted into the AckTable
or transmitted (the table is returned unchanged and the trace is empty);
a message within the limit is never rejected with `MessageTooBig`. -/
theorem send_msg_message_too_big (msg : Message) (table : AckTable)
    (mini_id : Nat) (now : Int) (link_ok : Bool) :
    (MAX_MESSAGE_SIZE < msg.buf.length →
      send_msg msg table mini_id now link_ok =
        (Except.error Errors.MessageTooBig, table, [])) ∧
    (msg.buf.length ≤ MAX_MESSAGE_SIZE →
      (send_msg msg table mini_id now link_ok).1 ≠
        Except.error Errors.MessageTooBig) := by
  constructor
  · intro h
    unfold send_msg
    rw [if_pos h]
  · intro h
    have hn : ¬ MAX_MESSAGE_SIZE < msg.buf.length := not_lt.mpr h
    unfold send_msg
    rw [if_neg hn]
    cases link_ok <;> simp

/-- The smallest over-limit message: 1 GiB plus one byte of payload. -/
def big_message : Message :=
  ⟨"10.0.0.1", MessageType.NewMessage, List.replicate (MAX_MESSAGE_SIZE + 1) 0⟩

/-- C9 witness: the concrete over-limit message is rejected with
`MessageTooBig`, the AckTable untouched and nothing transmitted. -/
theorem send_msg_message_too_big_witness :
    send_msg big_message [] 1 0 true =
      (Except.error Errors.MessageTooBig, [], []) :=
  (send_msg_message_too_big big_message [] 1 0 true).1
    (by
      show MAX_MESSAGE_SIZE < (List.replicate (MAX_MESSAGE_SIZE + 1) 0).length
      rw [List.length_replicate]
      exact Nat.lt_succ_self _)

/-! ### Receive path (claims C5, C6, C7, C10) -/

/-- The events `binding.rs` sends to the upper layer over `tx_msg`
(`IncomingMessage` of the missing `message.rs`, as used by `binding.rs`). -/
inductive IncomingMessage
  | New (m : Message)
  | FileUpload (m : Message)
  | Ack (id : Nat)
deriving DecidableEq

/-- The parts of the `Network` struct the receive path reads: the peer
accept list, the shared AckTable, the probe id and the probed payload
size. -/
structure NetworkState where
  accept_ip : List String
  table : AckTable
  ping_id : Nat
  current_siz : Nat
deriving DecidableEq

/-- `Network::new` starts with `current_siz: 128`. -/
def initial_current_siz : Nat := 128

/-- `Network::handle_file_upload`: if we are not the sender
(`!self.contains(p.id)`), forward the payload upward as `FileUpload` and
transmit an ACK for the same id; otherwise do nothing.  Returns the upward
events and the transmitted packets; the AckTable is only read. -/
def handle_file_upload (t : AckTable) (p : Packet) :
    List IncomingMessage × List Packet :=
  if !(containsKey t p.id) then
    ([IncomingMessage.FileUpload (Message.new p.ip p.data)],
      [Packet.create_ack p])
  else ([], [])

/-- `Network::handle_new_message`: as `handle_file_upload`, with the `New`
variant. -/
def handle_new_message (t : AckTable) (p : Packet) :
    List IncomingMessage × List Packet :=
  if !(containsKey t p.id) then
    ([IncomingMessage.New (Message.new p.ip p.data)],
      [Packet.create_ack p])
  else ([], [])

/-- `Network::handle_ack`: remove the packet id from the AckTable; emit an
upward `Ack(id)` exactly when an entry was removed.  Returns the new table
and the upward events. -/
def handle_ack (t : AckTable) (p : Packet) : AckTable × List IncomingMessage :=
  if containsKey t p.id then
    (remove_packet t p.id, [IncomingMessage.Ack p.id])
  else (t, [])

/-- Embedding of `Network::recv_packet`: drop zero-length deliveries, drop
sources outside `accept_ip` (`accept_ip.iter().find(|&x| *x == ip).is_none()`),
otherwise deserialize and dispatch on the packet kind (file upload, new
message, ack; anything else ignored).  Returns the upward events, the
transmitted packets and the AckTable after the call. -/
def recv_packet (st : NetworkState) (buf : List Nat) (ip : String) :
    List IncomingMessage × List Packet × AckTable :=
  if buf.length = 0 then ([], [], st.table)
  else if (st.accept_ip.find? (fun x => x == ip)).isNone then ([], [], st.table)
  else
    match Packet.deserialize buf ip with
    | some p =>
      if p.is_file_upload then
        let r := handle_file_upload st.table p
        (r.1, r.2, st.table)
      else if p.is_new_message then
        let r := handle_new_message st.table p
        (r.1, r.2, st.table)
      else if p.is_ack then
        let r := handle_ack st.table p
        (r.2, [], r.1)
      else ([], [], st.table)
    | none => ([], [], st.table)

theorem deserialize_length (buf : List Nat) (ip : String) (p : Packet)
    (h : Packet.deserialize buf ip = some p) : 10 ≤ buf.length := by
  match buf with
  | v :: k :: rest =>
    have hd : Packet.deserialize (v :: k :: rest) ip =
        (if v = 1 ∧ 8 ≤ rest.length then
          some ⟨v, k, beNat (rest.take 8), rest.drop 8, ip⟩
        else none) := rfl
    rw [hd] at h
    by_cases hc : v = 1 ∧ 8 ≤ rest.length
    · have h8 := hc.2
      simp only [List.length_cons]
      omega
    · rw [if_neg hc] at h
      exact absurd h (Ne.symm (Option.some_ne_none p))
  | [] =>
    rw [(rfl : Packet.deserialize [] ip = none)] at h
    exact absurd h (Ne.symm (Option.some_ne_none p))
  | [v] =>
    rw [(rfl : Packet.deserialize [v] ip = none)] at h
    exact absurd h (Ne.symm (Option.some_ne_none p))

theorem find?_isNone_false_of_mem (l : List String) (ip : String)
    (h : ip ∈ l) : (l.find? (fun x => x == ip)).isNone = false := by
  cases hf : l.find? (fun x => x == ip) with
  | some x => rfl
  | none =>
    rw [List.find?_eq_none] at hf
    exact absurd (by simp : (ip == ip) = true) (hf ip h)

theorem recv_packet_dispatch (st : NetworkState) (buf : List Nat)
    (ip : String) (p : Packet)
    (hde : Packet.deserialize buf ip = some p)
    (hacc : ip ∈ st.accept_ip) :
    recv_packet st buf ip =
      (if p.is_file_upload then
        ((handle_file_upload st.table p).1, (handle_file_upload st.table p).2,
          st.table)
      else if p.is_new_message then
        ((handle_new_message st.table p).1, (handle_new_message st.table p).2,
          st.table)
      else if p.is_ack then
        ((handle_ack st.table p).2, [], (handle_ack st.table p).1)
      else ([], [], st.table)) := by
  have hlen := deserialize_length buf ip p hde
  have hne : ¬ buf.length = 0 := by omega
  have hfind := find?_isNone_false_of_mem st.accept_ip ip hacc
  unfold recv_packet
  rw [if_neg hne, hfind, if_neg Bool.false_ne_true, hde]

/-- C5: an inbound NEW_MESSAGE or FILE_UPLOAD packet from an accepted
source whose id is not in the AckTable produces exactly one upward event of
the matching variant carrying the packet payload, and transmits exactly one
ACK packet with the same id (kind 17, empty payload); when the id is in the
AckTable the packet is dropped: no upward event, no transmit, table
untouched. -/
theorem recv_packet_new_or_upload (st : NetworkState) (buf : List Nat)
    (ip : String) (p : Packet)
    (hde : Packet.deserialize buf ip = some p)
    (hacc : ip ∈ st.accept_ip)
    (hk : p.kind = NEW_MESSAGE ∨ p.kind = FILE_UPLOAD) :
    (containsKey st.table p.id = false →
      recv_packet st buf ip =
        ([if p.kind = FILE_UPLOAD then
            IncomingMessage.FileUpload (Message.new p.ip p.data)
          else IncomingMessage.New (Message.new p.ip p.data)],
          [Packet.create_ack p], st.table)) ∧
    (containsKey st.table p.id = true →
      recv_packet st buf ip = ([], [], st.table)) ∧
    (Packet.create_ack p).id = p.id ∧
    (Packet.create_ack p).kind = ACK ∧
    (Packet.create_ack p).data = [] := by
  rw [recv_packet_dispatch st buf ip p hde hacc]
  cases hk with
  | inl h16 =>
    have hfu : p.is_file_upload = false := by
      unfold Packet.is_file_upload
      rw [h16]
      rfl
    have hnm : p.is_new_message = true := by
      unfold Packet.is_new_message
      rw [h16]
      rfl
    have hkind : ¬ p.kind = FILE_UPLOAD := by
      rw [h16]
      decide
    rw [hfu, if_neg Bool.false_ne_true, hnm, if_pos rfl, if_neg hkind]
    refine ⟨?_, ?_, rfl, rfl, rfl⟩
    · intro hc
      unfold handle_new_message
      rw [hc]
      rfl
    · intro hc
      unfold handle_new_message
      rw [hc]
      rfl
  | inr h18 =>
    have hfu : p.is_file_upload = true := by
      unfold Packet.is_file_upload
      rw [h18]
      rfl
    have hkind : p.kind = FILE_UPLOAD := h18
    rw [hfu, if_pos rfl, if_pos hkind]
    refine ⟨?_, ?_, rfl, rfl, rfl⟩
    · intro hc
      unfold handle_file_upload
      rw [hc]
      rfl
    · intro hc
      unfold handle_file_upload
      rw [hc]
      rfl

/-- The state used by the receive-path witnesses: peer 10.0.0.1 accepted,
empty AckTable, probe id 0, probed size 128. -/
def w_state : NetworkState := ⟨["10.0.0.1"], [], 0, initial_current_siz⟩

/-- A concrete NEW_MESSAGE wire image: version 1, kind 16, id 5 (big
endian), payload [42]. -/
def w_buf : List Nat := [1, 16, 0, 0, 0, 0, 0, 0, 0, 5, 42]

/-- The packet carried by `w_buf`. -/
def w_packet : Packet := ⟨1, NEW_MESSAGE, 5, [42], "10.0.0.1"⟩

/-- C5 witness: the concrete NEW_MESSAGE delivery on an empty AckTable. -/
theorem recv_packet_new_or_upload_witness :
    (Packet.deserialize w_buf "10.0.0.1" = some w_packet) ∧
    ("10.0.0.1" ∈ w_state.accept_ip) ∧
    (w_packet.kind = NEW_MESSAGE ∨ w_packet.kind = FILE_UPLOAD) ∧
    ((containsKey w_state.table w_packet.id = false →
      recv_packet w_state w_buf "10.0.0.1" =
        ([if w_packet.kind = FILE_UPLOAD then
            IncomingMessage.FileUpload (Message.new w_packet.ip w_packet.data)
          else IncomingMessage.New (Message.new w_packet.ip w_packet.data)],
          [Packet.create_ack w_packet], w_state.table)) ∧
    (containsKey w_state.table w_packet.id = true →
      recv_packet w_state w_buf "10.0.0.1" = ([], [], w_state.table)) ∧
    (Packet.create_ack w_packet).id = w_packet.id ∧
    (Packet.create_ack w_packet).kind = ACK ∧
    (Packet.create_ack w_packet).data = []) :=
  ⟨by decide, by decide, by decide,
    recv_packet_new_or_upload w_state w_buf "10.0.0.1" w_packet
      (by decide) (by decide) (by decide)⟩

/-- C6: processing an inbound ACK removes the id from the AckTable, and
emits one upward `Ack(id)` exactly when an entry was removed; processing
the same ACK again leaves the table unchanged and emits nothing. -/
theorem handle_ack_idempotent (t : AckTable) (p : Packet) :
    ((handle_ack t p).2 = [IncomingMessage.Ack p.id] ↔
      containsKey t p.id = true) ∧
    ((handle_ack t p).2 = [] ↔ containsKey t p.id = false) ∧
    containsKey (handle_ack t p).1 p.id = false ∧
    handle_ack (handle_ack t p).1 p = ((handle_ack t p).1, []) := by
  by_cases hc : containsKey t p.id = true
  · have he : handle_ack t p = (remove_packet t p.id, [IncomingMessage.Ack p.id]) := by
      unfold handle_ack
      rw [if_pos hc]
    rw [he]
    refine ⟨by simp [hc], by simp [hc], containsKey_remove_self t p.id, ?_⟩
    unfold handle_ack
    rw [containsKey_remove_self t p.id, if_neg Bool.false_ne_true]
  · have hc' : containsKey t p.id = false := by simpa using hc
    have he : handle_ack t p = (t, []) := by
      unfold handle_ack
      rw [hc', if_neg Bool.false_ne_true]
    rw [he]
    refine ⟨by simp [hc'], by simp [hc'], hc', ?_⟩
    exact he

/-- C7: an inbound packet whose source ip is not in the accept list
produces no upward event, transmits nothing and leaves the AckTable
unchanged, whatever its content. -/
theorem recv_packet_source_filtered (st : NetworkState) (buf : List Nat)
    (ip : String) (h : ip ∉ st.accept_ip) :
    recv_packet st buf ip = ([], [], st.table) := by
  unfold recv_packet
  by_cases hz : buf.length = 0
  · rw [if_pos hz]
  · rw [if_neg hz]
    have hfind : st.accept_ip.find? (fun x => x == ip) = none := by
      rw [List.find?_eq_none]
      intro x hx
      simp only [beq_iff_eq]
      intro hxe
      exact h (hxe ▸ hx)
    rw [hfind]
    rfl

/-- C7 witness: a packet from the unaccepted source 10.0.0.9 is dropped. -/
theorem recv_packet_source_filtered_witness :
    ("10.0.0.9" ∉ w_state.accept_ip) ∧
    recv_packet w_state w_buf "10.0.0.9" = ([], [], w_state.table) :=
  ⟨by decide,
    recv_packet_source_filtered w_state w_buf "10.0.0.9" (by decide)⟩

/-- C10: a zero-length delivery returns immediately: no upward event, no
transmit, AckTable untouched — also when the source is accepted. -/
theorem recv_packet_empty_delivery (st : NetworkState) (buf : List Nat)
    (ip : String) (h : buf.length = 0) :
    recv_packet st buf ip = ([], [], st.table) := by
  unfold recv_packet
  rw [if_pos h]

/-- C10 witness: the empty delivery from the accepted source 10.0.0.1. -/
theorem recv_packet_empty_delivery_witness :
    (([] : List Nat).length = 0) ∧
    recv_packet w_state [] "10.0.0.1" = ([], [], w_state.table) :=
  ⟨by decide,
    recv_packet_empty_delivery w_state [] "10.0.0.1" (by decide)⟩

/-! ### MTU probe (claim C8) -/

/-- Little-endian decimal digits with an explicit fuel bound, so that the
function evaluates by kernel reduction. -/
def digitsFuel : Nat → Nat → List Nat
  | 0, _ => []
  | fuel + 1, n => if n = 0 then [] else n % 10 :: digitsFuel fuel (n / 10)

/-- Little-endian decimal digits of `n` (empty for 0). -/
def decDigits (n : Nat) : List Nat := digitsFuel n n

theorem digitsFuel_eq_digits (fuel : Nat) :
    ∀ n, n ≤ fuel → digitsFuel fuel n = Nat.digits 10 n := by
  induction fuel with
  | zero =>
    intro n hn
    have h0 : n = 0 := by omega
    subst h0
    rw [Nat.digits_zero]
    rfl
  | succ fuel ih =>
    intro n hn
    by_cases h0 : n = 0
    · subst h0
      rw [Nat.digits_zero]
      rfl
    · have hstep : digitsFuel (fuel + 1) n =
          (if n = 0 then [] else n % 10 :: digitsFuel fuel (n / 10)) := rfl
      rw [hstep, if_neg h0]
      have hdiv : n / 10 ≤ fuel := by
        have := Nat.div_lt_self (Nat.pos_of_ne_zero h0) (by norm_num : 1 < 10)
        omega
      rw [ih (n / 10) hdiv,
        ← Nat.digits_def' (by norm_num : 1 < 10) (Nat.pos_of_ne_zero h0)]

theorem decDigits_eq_digits (n : Nat) : decDigits n = Nat.digits 10 n :=
  digitsFuel_eq_digits n n le_rfl

/-- Modelled from Rust std: the decimal digit bytes of `n`, most
significant first, as the integer `Display` implementation prints them
("0" for zero, no sign for unsigned). -/
def decimalBytes (n : Nat) : List Nat :=
  if n = 0 then [48] else (decDigits n).reverse.map (fun d => d + 48)

/-- Modelled from Rust std: `format!("{:12}", n)` — the decimal
right-aligned in a width of 12, filled with spaces (byte 32) on the left
(numbers right-align by default; no truncation when longer than 12). -/
def padded12 (n : Nat) : List Nat :=
  List.replicate (12 - (decimalBytes n).length) 32 ++ decimalBytes n

/-- The bytes of an ASCII string literal. -/
def strBytes (s : String) : List Nat := s.toList.map Char.toNat

/-- The probe string `format!("PROBING:{:12}/", ping_id)` built by
`Network::ping`. -/
def probe_string (ping_id : Nat) : List Nat :=
  strBytes "PROBING:" ++ padded12 ping_id ++ [47]

/-- `Network::ping`: panics (`none`) when `n` is below the probe string
length; otherwise the single echo-request payload it hands to
`send_data_as_ping` — the probe string padded with `0x01` bytes to length
`n`. -/
def ping_payload (n : Nat) (ping_id : Nat) : Option (List Nat) :=
  if n < (probe_string ping_id).length then none
  else some (probe_string ping_id ++
    List.replicate (n - (probe_string ping_id).length) 1)

/-- `Network::new` probes with 8192 bytes, to one configured peer. -/
def MTU_PROBE_SIZE : Nat := 8192

/-- `Network::is_probing`: the first (up to) 8 bytes equal "PROBING:". -/
def is_probing (buf : List Nat) : Bool :=
  buf.take 8 == strBytes "PROBING:"

/-- ASCII whitespace (the ASCII range of Rust's `char::is_whitespace`). -/
def isWs (b : Nat) : Bool :=
  b == 32 || b == 9 || b == 10 || b == 11 || b == 12 || b == 13

/-- Modelled from Rust std: `str::trim` on ASCII bytes. -/
def trimBytes (l : List Nat) : List Nat :=
  ((l.dropWhile isWs).reverse.dropWhile isWs).reverse

def isDigitByte (b : Nat) : Bool := 48 ≤ b && b ≤ 57

def digitsVal (l : List Nat) : Nat :=
  l.foldl (fun a b => a * 10 + (b - 48)) 0

/-- Modelled from Rust std: `str::parse::<u32>().unwrap_or(0)` on ASCII
bytes — a nonempty all-digit string within `u32` range parses to its
value, anything else gives 0. -/
def parse_u32 (l : List Nat) : Nat :=
  if l ≠ [] ∧ l.all isDigitByte = true ∧ digitsVal l < 2 ^ 32 then digitsVal l
  else 0

/-- `Network::probing_id`: bytes 8..20 of the payload, trimmed and parsed;
any failure yields 0.  Modelled for ASCII payload bytes (`String::from_utf8`
failure and non-ASCII Unicode whitespace are elided; both also parse to 0
on the payloads this development quantifies over). -/
def probing_id (buf : List Nat) : Nat :=
  parse_u32 (trimBytes ((buf.drop 8).take 12))

/-- `Network::pong`: deserialize the echo reply; ignore it when the payload
is shorter than 10 bytes or lacks the "PROBING:" head; when the parsed
probe id equals ours, record the payload length into `current_siz`. -/
def pong (st : NetworkState) (buf : List Nat) (ip : String) : NetworkState :=
  match Packet.deserialize buf ip with
  | some p =>
    if p.data.length < 10 then st
    else if !(is_probing p.data) then st
    else if probing_id p.data = st.ping_id then
      { st with current_siz := p.data.length }
    else st
  | none => st

/-- The probe payload exactly as claim C8 words it: "PROBING:", the probe
id as a zero-padded 12-character decimal, then `0x01` bytes padding the
payload to 8192 bytes. -/
def claimed_probe_payload (ping_id : Nat) : List Nat :=
  strBytes "PROBING:" ++
    List.replicate (12 - (decimalBytes ping_id).length) 48 ++
    decimalBytes ping_id ++ List.replicate (8192 - 20) 1

theorem decimalBytes_digits (n : Nat) :
    decimalBytes n ≠ [] ∧ ∀ b ∈ decimalBytes n, 48 ≤ b ∧ b ≤ 57 := by
  unfold decimalBytes
  by_cases h0 : n = 0
  · rw [if_pos h0]
    refine ⟨by simp, ?_⟩
    intro b hb
    simp only [List.mem_singleton] at hb
    omega
  · rw [if_neg h0]
    constructor
    · rw [Ne, List.map_eq_nil_iff, List.reverse_eq_nil_iff, decDigits_eq_digits]
      exact Nat.digits_ne_nil_iff_ne_zero.mpr h0
    · intro b hb
      simp only [List.mem_map, List.mem_reverse] at hb
      obtain ⟨d, hd, rfl⟩ := hb
      rw [decDigits_eq_digits] at hd
      have := Nat.digits_lt_base (by norm_num : 1 < 10) hd
      omega

theorem decimalBytes_length_le (n : Nat) (h : n < 2 ^ 32) :
    (decimalBytes n).length ≤ 12 := by
  unfold decimalBytes
  by_cases h0 : n = 0
  · rw [if_pos h0]
    norm_num
  · rw [if_neg h0, List.length_map, List.length_reverse, decDigits_eq_digits,
      Nat.digits_len 10 n (by norm_num) h0]
    have hlog : Nat.log 10 n < 12 :=
      Nat.log_lt_of_lt_pow h0 (lt_of_lt_of_le h (by norm_num))
    omega

theorem padded12_length (n : Nat) (h : n < 2 ^ 32) : (padded12 n).length = 12 := by
  unfold padded12
  rw [List.length_append, List.length_replicate]
  have := decimalBytes_length_le n h
  omega

theorem probe_string_length (n : Nat) (h : n < 2 ^ 32) :
    (probe_string n).length = 21 := by
  unfold probe_string
  rw [List.length_append, List.length_append, padded12_length n h]
  have h8 : (strBytes "PROBING:").length = 8 := rfl
  rw [h8]
  rfl

theorem dropWhile_ws_replicate (k : Nat) (l : List Nat) :
    List.dropWhile isWs (List.replicate k 32 ++ l) = List.dropWhile isWs l := by
  induction k with
  | zero => rfl
  | succ k ih =>
    have h32 : isWs 32 = true := by decide
    rw [List.replicate_succ, List.cons_append, List.dropWhile_cons, if_pos h32]
    exact ih

theorem dropWhile_ws_digits (l : List Nat) (h : ∀ b ∈ l, 48 ≤ b ∧ b ≤ 57) :
    List.dropWhile isWs l = l := by
  cases l with
  | nil => rfl
  | cons b l =>
    have hb := h b (by simp)
    have hws : isWs b = false := by
      unfold isWs
      simp only [Bool.or_eq_false_iff, beq_eq_false_iff_ne, ne_eq]
      omega
    rw [List.dropWhile_cons, if_neg (by rw [hws]; exact Bool.false_ne_true)]

theorem trimBytes_pad (k : Nat) (l : List Nat)
    (h : ∀ b ∈ l, 48 ≤ b ∧ b ≤ 57) :
    trimBytes (List.replicate k 32 ++ l) = l := by
  unfold trimBytes
  rw [dropWhile_ws_replicate, dropWhile_ws_digits l h,
    dropWhile_ws_digits l.reverse
      (fun b hb => h b (List.mem_reverse.mp hb))]
  exact List.reverse_reverse l

theorem foldl_digits_reverse (L : List Nat) (a : Nat) :
    L.reverse.foldl (fun x d => x * 10 + d) a =
      a * 10 ^ L.length + Nat.ofDigits 10 L := by
  induction L generalizing a with
  | nil => simp
  | cons d L ih =>
    rw [List.reverse_cons, List.foldl_append]
    show (L.reverse.foldl (fun x d => x * 10 + d) a) * 10 + d = _
    rw [ih, Nat.ofDigits_cons, List.length_cons, pow_succ]
    ring

theorem digitsVal_decimalBytes (n : Nat) : digitsVal (decimalBytes n) = n := by
  unfold digitsVal decimalBytes
  by_cases h0 : n = 0
  · rw [if_pos h0, h0]
    rfl
  · rw [if_neg h0, List.foldl_map]
    have hsimp : (fun (a d : Nat) => a * 10 + (d + 48 - 48)) =
        (fun (a d : Nat) => a * 10 + d) := by
      funext a d
      omega
    rw [hsimp, decDigits_eq_digits, foldl_digits_reverse]
    simp [Nat.ofDigits_digits]

theorem parse_u32_decimalBytes (n : Nat) (h : n < 2 ^ 32) :
    parse_u32 (decimalBytes n) = n := by
  have hd := decimalBytes_digits n
  have hall : (decimalBytes n).all isDigitByte = true := by
    rw [List.all_eq_true]
    intro b hb
    have hb' := hd.2 b hb
    unfold isDigitByte
    simp only [Bool.and_eq_true, decide_eq_true_eq]
    omega
  unfold parse_u32
  rw [digitsVal_decimalBytes, if_pos ⟨hd.1, hall, h⟩]

theorem probing_id_probe (ping_id : Nat) (h : ping_id < 2 ^ 32) :
    probing_id (probe_string ping_id ++ List.replicate 8171 1) = ping_id := by
  unfold probing_id
  have hdrop : (probe_string ping_id ++ List.replicate 8171 1).drop 8 =
      padded12 ping_id ++ ([47] ++ List.replicate 8171 1) := by
    unfold probe_string
    rw [List.append_assoc, List.append_assoc]
    exact List.drop_left' (rfl : (strBytes "PROBING:").length = 8)
  rw [hdrop,
    List.take_left' (padded12_length ping_id h)]
  unfold padded12
  rw [trimBytes_pad _ _ (decimalBytes_digits ping_id).2]
  exact parse_u32_decimalBytes ping_id h

/-- C8 counterexample: at probe id 7 the transmitted payload differs from
the claim's zero-padded format — the code space-pads the 12-character field
(byte 32 at offset 8, not 48) and inserts a '/' separator before the 0x01
padding. -/
theorem ping_payload_cex :
    ping_payload MTU_PROBE_SIZE 7 ≠ some (claimed_probe_payload 7) := by
  decide

/-- C8 (amended): the startup MTU probe transmits one echo request whose
payload is the ASCII bytes "PROBING:" followed by the probe id as a
space-padded right-aligned 12-character decimal and a '/' separator,
followed by 0x01 bytes padding the payload to 8192 bytes; bytes 8..20 of
that payload parse back to the probe id; and an echo reply whose payload
carries at least 10 bytes, the "PROBING:" head, and a 12-character decimal
id parsing to the stored probe id updates `current_siz` (initially 128) to
the received payload length. -/
theorem mtu_probe_spec (ping_id : Nat) (h : ping_id < 2 ^ 32) :
    (ping_payload MTU_PROBE_SIZE ping_id =
      some (probe_string ping_id ++ List.replicate 8171 1)) ∧
    ((probe_string ping_id ++ List.replicate 8171 1).length = 8192) ∧
    ((probe_string ping_id ++ List.replicate 8171 1).take 8 =
      strBytes "PROBING:") ∧
    (((probe_string ping_id ++ List.replicate 8171 1).drop 8).take 12 =
      List.replicate (12 - (decimalBytes ping_id).length) 32 ++
        decimalBytes ping_id) ∧
    ((probe_string ping_id ++ List.replicate 8171 1).drop 20 =
      47 :: List.replicate 8171 1) ∧
    is_probing (probe_string ping_id ++ List.replicate 8171 1) = true ∧
    probing_id (probe_string ping_id ++ List.replicate 8171 1) = ping_id ∧
    initial_current_siz = 128 ∧
    (∀ st buf ip p, Packet.deserialize buf ip = some p →
      10 ≤ p.data.length → is_probing p.data = true →
      probing_id p.data = st.ping_id →
      pong st buf ip = { st with current_siz := p.data.length }) := by
  have hlen := probe_string_length ping_id h
  have hassoc : probe_string ping_id ++ List.replicate 8171 1 =
      strBytes "PROBING:" ++
        (padded12 ping_id ++ ([47] ++ List.replicate 8171 1)) := by
    unfold probe_string
    rw [List.append_assoc, List.append_assoc]
  refine ⟨?_, ?_, ?_, ?_, ?_, ?_, probing_id_probe ping_id h, rfl, ?_⟩
  · unfold ping_payload MTU_PROBE_SIZE
    rw [hlen, if_neg (by norm_num : ¬ (8192 < 21))]
  · rw [List.length_append, hlen, List.length_replicate]
  · rw [hassoc]
    exact List.take_left' rfl
  · have hdrop : (probe_string ping_id ++ List.replicate 8171 1).drop 8 =
        padded12 ping_id ++ ([47] ++ List.replicate 8171 1) := by
      rw [hassoc]
      exact List.drop_left' (rfl : (strBytes "PROBING:").length = 8)
    rw [hdrop, List.take_left' (padded12_length ping_id h)]
    rfl
  · have hsplit : probe_string ping_id ++ List.replicate 8171 1 =
        (strBytes "PROBING:" ++ padded12 ping_id) ++
          ([47] ++ List.replicate 8171 1) := by
      unfold probe_string
      rw [List.append_assoc]
    have hl20 : (strBytes "PROBING:" ++ padded12 ping_id).length = 20 := by
      rw [List.length_append, padded12_length ping_id h]
      rfl
    rw [hsplit, List.drop_left' hl20]
    rfl
  · unfold is_probing
    rw [hassoc,
      List.take_left' (show (strBytes "PROBING:").length = 8 from rfl)]
    simp
  · intro st buf ip p hde h10 hpr hpid
    unfold pong
    rw [hde]
    dsimp only
    rw [if_neg (by omega : ¬ p.data.length < 10), hpr]
    simp only [Bool.not_true]
    rw [if_neg Bool.false_ne_true, if_pos hpid]

/-- C8 witness: the amended probe/pong behaviour at the concrete probe id 7. -/
theorem mtu_probe_spec_witness :
    (7 < 2 ^ 32) ∧
    ((ping_payload MTU_PROBE_SIZE 7 =
      some (probe_string 7 ++ List.replicate 8171 1)) ∧
    ((probe_string 7 ++ List.replicate 8171 1).length = 8192) ∧
    ((probe_string 7 ++ List.replicate 8171 1).take 8 =
      strBytes "PROBING:") ∧
    (((probe_string 7 ++ List.replicate 8171 1).drop 8).take 12 =
      List.replicate (12 - (decimalBytes 7).length) 32 ++ decimalBytes 7) ∧
    ((probe_string 7 ++ List.replicate 8171 1).drop 20 =
      47 :: List.replicate 8171 1) ∧
    is_probing (probe_string 7 ++ List.replicate 8171 1) = true ∧
    probing_id (probe_string 7 ++ List.replicate 8171 1) = 7 ∧
    initial_current_siz = 128 ∧
    (∀ st buf ip p, Packet.deserialize buf ip = some p →
      10 ≤ p.data.length → is_probing p.data = true →
      probing_id p.data = st.ping_id →
      pong st buf ip = { st with current_siz := p.data.length })) :=
  ⟨by norm_num, mtu_probe_spec 7 (by norm_num)⟩

end Stealthy
